import Mathlib

/-!
Verification of the backup-otomatis restore orchestration pipeline
(`main.go`): file-size gating, download/extract failure handling with an
age gate, the SQL Server restore sequence, manifest parsing, data-path
resolution, the `.bak` locator, and the spreadsheet ledger upsert.

External effects (Drive API, `sqlcmd`, `7z`, the filesystem walk, the
Sheets API and the Go `time` package) are modelled by an environment
record holding the outcome of each call; the functions under verification are
translated from the source and additionally emit an event trace recording
which external operations were attempted, in order.  Filesystem paths are
modelled slash-separated.
-/

namespace BackupOtomatis

/-- Constant `minFileSize = 10 * 1024` from the source. -/
def minFileSize : Int := 10 * 1024

/-- Constant `maxAgeForDeletion = 10 * time.Minute`, in nanoseconds
(Go durations are nanosecond counts). -/
def maxAgeForDeletion : Int := 10 * 60 * 1000000000

/-- Whitespace as trimmed by Go `strings.TrimSpace` (the ASCII cases,
which are the only ones produced by the inputs of this program). -/
def goIsSpace (c : Char) : Bool :=
  c == ' ' || c == '\t' || c == '\n' || c == '\r'

/-- Model of Go `strings.TrimSpace`. -/
def goTrimSpace (s : String) : String :=
  String.mk (((s.data.dropWhile goIsSpace).reverse.dropWhile goIsSpace).reverse)

/-- Splitting a character list on a separator character; the result is
never empty and splitting the empty list gives one empty group, exactly
as Go `strings.Split` behaves on a one-character separator. -/
def splitCharList (sep : Char) : List Char → List (List Char)
  | [] => [[]]
  | c :: cs =>
    let r := splitCharList sep cs
    if c == sep then [] :: r
    else
      match r with
      | [] => [[c]]
      | g :: gs => (c :: g) :: gs

/-- Model of Go `strings.Split` with a one-character separator (the
program only splits on `"|"` and `"\n"`). -/
def goSplit (s : String) (sep : Char) : List String :=
  (splitCharList sep s.data).map String.mk

/-- Model of Go `strings.ToUpper` (ASCII case mapping suffices here). -/
def goToUpper (s : String) : String := String.mk (s.data.map Char.toUpper)

/-- Model of Go `strings.EqualFold`: equality up to case folding. -/
def goEqualFold (a b : String) : Bool := goToUpper a == goToUpper b

/-- Model of Go `strings.HasSuffix`. -/
def goEndsWith (s suf : String) : Bool := List.isSuffixOf suf.data s.data

/-- Model of Go `strings.HasPrefix`. -/
def goStartsWith (s p : String) : Bool := List.isPrefixOf p.data s.data

/-- Model of Go `filepath.Dir` for slash-separated paths: everything
before the last separator, `"."` when there is none, `"/"` for a
top-level entry. -/
def goDir (p : String) : String :=
  let cs := p.data
  if cs.contains '/' then
    let pre := ((cs.reverse.dropWhile (fun c => c ≠ '/')).reverse).dropLast
    if pre = [] then "/" else String.mk pre
  else "."

/-- Model of Go `filepath.Join` on two components for slash-separated
paths (path cleaning is not exercised by the inputs of this program). -/
def goJoin (a b : String) : String :=
  if a = "" then b else a ++ "/" ++ b

/-- The fields of `drive.File` that the program reads. -/
structure DriveFile where
  id : String
  name : String
  createdTime : String
  size : Int
  parents : List String
deriving Repr

/-- One attempted external operation, recorded in traversal order. -/
inductive Event where
  | createTemp : Event
  | download : String → Event
  | extractArchive : Event
  | walkDir : Event
  | grantPerms : Event
  | sqlFilelist : Event
  | sqlPathQuery : Event
  | sqlSingleUser : Event
  | sqlRestore : String → String → String → String → Event
  | sqlMultiUser : Event
  | runUpdate : Event
  | deleteDrive : String → Event
  | ledgerUpsert : String → String → Event
  | removeTemp : Event
deriving DecidableEq, Repr

/-- Outcomes of the five `sqlcmd` invocations inside `restoreDB`.  For
`cmd.Output()` calls the captured stdout is available even on failure,
which the code for the data-path query actually uses. -/
structure SqlEnv where
  filelistErr : Option String
  filelistOut : String
  pathErr : Option String
  pathOut : String
  singleUserResult : Except String Unit
  restoreResult : Except String Unit
  multiUserResult : Except String Unit

/-- Outcomes of every other external call made while processing one
file, plus the `time` package modelled as an abstract RFC3339 parser
(`parseTime`, nanosecond epoch) with the current instant `now` and the
timezone-aware display formatter `formatTime`. -/
structure Env where
  tempDirResult : Except String String
  downloadResult : Except String Unit
  extractResult : Except String Unit
  walkErr : Option String
  walkEntries : List (String × String)
  sql : SqlEnv
  updateQueryResult : Except String Unit
  deleteResult : Except String Unit
  parentName : Except String String
  parseTime : String → Option Int
  now : Int
  formatTime : Int → String

/-- One line of the `RESTORE FILELISTONLY` output folded into the
running `(dataLogical, logLogical)` pair, exactly as the loop body in
`restoreDB` does: trim the line, skip it when blank, split on the pipe,
trim each column, skip rows with fewer than three columns, then write
the first column into the log slot when the upper-cased third column
starts with `L` and into the data slot otherwise. -/
def manifestStep (acc : String × String) (line : String) : String × String :=
  let l := goTrimSpace line
  if l = "" then acc
  else
    let cols := (goSplit l '|').map goTrimSpace
    if cols.length < 3 then acc
    else
      let typ := goToUpper (cols.getD 2 "")
      if goStartsWith typ "L" then (acc.1, cols.getD 0 "")
      else (cols.getD 0 "", acc.2)

/-- The manifest-parsing step of `restoreDB`: trim the whole output,
leave both logical names empty when it is blank, otherwise fold
`manifestStep` over the newline-separated lines. -/
def parseManifest (out : String) : String × String :=
  let listOut := goTrimSpace out
  if listOut = "" then ("", "")
  else (goSplit listOut '\n').foldl manifestStep ("", "")

/-- The logical names actually used in the `RESTORE ... WITH MOVE`
statement: the parsed ones, with `dbName` and `dbName ++ "_log"` as
defaults for an empty slot. -/
def restoreLogicals (out dbName : String) : String × String :=
  let p := parseManifest out
  (if p.1 = "" then dbName else p.1, if p.2 = "" then dbName ++ "_log" else p.2)

/-- The data-path resolution in `restoreDB`: trim the captured output of the query
and fall back to the directory of the `.bak` file exactly when the
trimmed text is empty or case-insensitively equal to `"NULL"`. -/
def resolveDataPath (pathOut bakPath : String) : String :=
  let dataPath := goTrimSpace pathOut
  if dataPath = "" ∨ goEqualFold dataPath "NULL" then goDir bakPath else dataPath

/-- `restoreDB`, driven by a `SqlEnv`: run `RESTORE FILELISTONLY`
(fatal on error), the data-path query (error only logged; the captured
output is used regardless), `SET SINGLE_USER` (fatal on error), the
`RESTORE ... WITH MOVE` statement (fatal on error) and `SET MULTI_USER`
(warning only).  The restore event records the logical names and the
move targets that the generated statement names. -/
def restoreDB (sql : SqlEnv) (dbName bakPath : String) :
    Except String Unit × List Event :=
  match sql.filelistErr with
  | some e => (.error ("failed to run RESTORE FILELISTONLY: " ++ e), [.sqlFilelist])
  | none =>
    let logicals := restoreLogicals sql.filelistOut dbName
    let dataPath := resolveDataPath sql.pathOut bakPath
    match sql.singleUserResult with
    | .error e =>
        (.error ("failed to set database to single user: " ++ e),
         [.sqlFilelist, .sqlPathQuery, .sqlSingleUser])
    | .ok _ =>
      let mdfTarget := goJoin dataPath (dbName ++ ".mdf")
      let ldfTarget := goJoin dataPath (dbName ++ "_log.ldf")
      let restoreEv := Event.sqlRestore logicals.1 mdfTarget logicals.2 ldfTarget
      match sql.restoreResult with
      | .error e =>
          (.error ("restore failed: " ++ e),
           [.sqlFilelist, .sqlPathQuery, .sqlSingleUser, restoreEv])
      | .ok _ =>
          (.ok (),
           [.sqlFilelist, .sqlPathQuery, .sqlSingleUser, restoreEv, .sqlMultiUser])

/-- `findBakFile`, over the walk modelled as an ordered list of
`(path, name)` entries plus an optional walk error: the fold keeps the
path of the last entry whose name ends in `.bak`, and an empty result
reports the not-found error. -/
def findBakFile (entries : List (String × String)) (walkErr : Option String) :
    Except String String :=
  match walkErr with
  | some e => .error e
  | none =>
    let bakFile := entries.foldl
      (fun acc ent => if goEndsWith ent.2 ".bak" then ent.1 else acc) ""
    if bakFile = "" then .error "no .bak file found" else .ok bakFile

/-- `shouldDelete`: parse the creation timestamp of the file as RFC3339 and
eat a parse failure as `false`; otherwise the file is eligible for
deletion exactly when `time.Since(createdTime) ≥ maxAgeForDeletion`. -/
def shouldDelete (env : Env) (file : DriveFile) : Bool :=
  match env.parseTime file.createdTime with
  | none => false
  | some t => env.now - t ≥ maxAgeForDeletion

/-- `formatCreatedTime`: fall back to the original string when parsing
fails, otherwise format via the configured-timezone formatter. -/
def formatCreatedTime (env : Env) (s : String) : String :=
  match env.parseTime s with
  | none => s
  | some t => env.formatTime t

/-- `deleteSmallFile`: attempt the Drive deletion and wrap its error. -/
def deleteSmallFile (env : Env) (file : DriveFile) :
    Except String Unit × List Event :=
  match env.deleteResult with
  | .error e => (.error ("failed to delete small file: " ++ e), [.deleteDrive file.id])
  | .ok _ => (.ok (), [.deleteDrive file.id])

/-- `deleteFileAndUpdateSpreadsheet`: delete the Drive file first and
return on failure; only then resolve the parent-folder name (a failure
there is a logged warning) and attempt the ledger upsert (whose own
failure is also only a warning). -/
def deleteFileAndUpdateSpreadsheet (env : Env) (file : DriveFile) :
    Except String Unit × List Event :=
  match env.deleteResult with
  | .error e => (.error ("failed to delete Drive file: " ++ e), [.deleteDrive file.id])
  | .ok _ =>
    match env.parentName with
    | .error _ => (.ok (), [.deleteDrive file.id])
    | .ok pname =>
        (.ok (),
         [.deleteDrive file.id,
          .ledgerUpsert pname (formatCreatedTime env file.createdTime)])

/-- `downloadAndExtract`: download (wrapping a failure), extract the 7z
archive (wrapping a failure), then locate the `.bak` file via the walk
(wrapping a failure), returning its path. -/
def downloadAndExtract (env : Env) (file : DriveFile) :
    Except String String × List Event :=
  match env.downloadResult with
  | .error e => (.error ("failed to download file: " ++ e), [.download file.id])
  | .ok _ =>
    match env.extractResult with
    | .error e =>
        (.error ("failed to extract 7z: " ++ e), [.download file.id, .extractArchive])
    | .ok _ =>
      match findBakFile env.walkEntries env.walkErr with
      | .error e =>
          (.error ("failed to find .bak file: " ++ e),
           [.download file.id, .extractArchive, .walkDir])
      | .ok bak => (.ok bak, [.download file.id, .extractArchive, .walkDir])

/-- `processFile`: the per-file state machine.  Small files are handed
to `deleteSmallFile` and nothing else happens; otherwise a scratch
directory is created (its deferred removal shows up as the final
`removeTemp` event on every exit path past this point), the archive is
downloaded and extracted — with the age-gated cleanup branch on
failure — permissions are granted (best-effort), the database is
restored, the update query runs, and finally the source is deleted and
the ledger updated. -/
def processFile (env : Env) (file : DriveFile) (dbName : String) :
    Except String Unit × List Event :=
  if file.size < minFileSize then
    deleteSmallFile env file
  else
    match env.tempDirResult with
    | .error e => (.error e, [.createTemp])
    | .ok _ =>
      match downloadAndExtract env file with
      | (.error e, dlEv) =>
        if shouldDelete env file then
          let d := deleteFileAndUpdateSpreadsheet env file
          (.error e, .createTemp :: dlEv ++ d.2 ++ [.removeTemp])
        else
          (.error e, .createTemp :: dlEv ++ [.removeTemp])
      | (.ok bakFile, dlEv) =>
        match restoreDB env.sql dbName bakFile with
        | (.error e, rEv) =>
            (.error e, .createTemp :: dlEv ++ [.grantPerms] ++ rEv ++ [.removeTemp])
        | (.ok _, rEv) =>
          match env.updateQueryResult with
          | .error e =>
              (.error e,
               .createTemp :: dlEv ++ [.grantPerms] ++ rEv ++ [.runUpdate, .removeTemp])
          | .ok _ =>
            match deleteFileAndUpdateSpreadsheet env file with
            | (.error e, dEv) =>
                (.error e,
                 .createTemp :: dlEv ++ [.grantPerms] ++ rEv ++ [.runUpdate]
                   ++ dEv ++ [.removeTemp])
            | (.ok _, dEv) =>
                (.ok (),
                 .createTemp :: dlEv ++ [.grantPerms] ++ rEv ++ [.runUpdate]
                   ++ dEv ++ [.removeTemp])

/-- A spreadsheet cell as seen through the Sheets API: the Go code type-
asserts `row[0].(string)`, so a cell is either a string or something
else. -/
inductive Cell where
  | str : String → Cell
  | other : Cell
deriving DecidableEq, Repr

/-- The row-matching test of `upsertSpreadsheetRow`: the row is
non-empty, its first cell is a string, and that string trimmed equals
the trimmed key. -/
def rowMatches (kab : String) (row : List Cell) : Bool :=
  match row with
  | [] => false
  | c :: _ => match c with
    | .str s => goTrimSpace s == goTrimSpace kab
    | .other => false

/-- Writing `createdTime` into column B of a matched row (the update to
range `B{rowIndex+1}` touches exactly that cell).  Matched rows are
never empty; for completeness an empty row gains an untouched column A. -/
def setColB (row : List Cell) (v : String) : List Cell :=
  match row with
  | [] => [.other, .str v]
  | c :: rest => c :: .str v :: rest.drop 1

/-- The linear scan of `upsertSpreadsheetRow`: update column B of the
first matching row in place, or report that no row matched. -/
def updateFirstMatch (kab v : String) : List (List Cell) → Option (List (List Cell))
  | [] => none
  | r :: rs =>
    if rowMatches kab r then some (setColB r v :: rs)
    else match updateFirstMatch kab v rs with
      | some rs2 => some (r :: rs2)
      | none => none

/-- `upsertSpreadsheetRow` as a transformer of the two-column grid read
from the sheet: search column A for the trimmed key; if a row matches,
overwrite its column B in place, otherwise append the new row
`[kab, createdTime]`. -/
def upsertSpreadsheetRow (grid : List (List Cell)) (kab createdTime : String) :
    List (List Cell) :=
  match updateFirstMatch kab createdTime grid with
  | some g => g
  | none => grid ++ [[.str kab, .str createdTime]]

/-- The number of rows whose column A matches the key. -/
def countMatches (kab : String) (grid : List (List Cell)) : Nat :=
  (grid.filter (fun r => rowMatches kab r)).length

/-! ### Helper lemmas -/

theorem restoreDB_no_deleteDrive (sql : SqlEnv) (dbName bakPath i : String) :
    Event.deleteDrive i ∉ (restoreDB sql dbName bakPath).2 := by
  unfold restoreDB
  rcases sql.filelistErr with _ | e
  · rcases h1 : sql.singleUserResult with e1 | u1 <;>
      rcases h2 : sql.restoreResult with e2 | u2 <;> simp [h1, h2]
  · simp

theorem restoreDB_no_ledgerUpsert (sql : SqlEnv) (dbName bakPath k s : String) :
    Event.ledgerUpsert k s ∉ (restoreDB sql dbName bakPath).2 := by
  unfold restoreDB
  rcases sql.filelistErr with _ | e
  · rcases h1 : sql.singleUserResult with e1 | u1 <;>
      rcases h2 : sql.restoreResult with e2 | u2 <;> simp [h1, h2]
  · simp

theorem downloadAndExtract_no_deleteDrive (env : Env) (file : DriveFile) (i : String) :
    Event.deleteDrive i ∉ (downloadAndExtract env file).2 := by
  unfold downloadAndExtract
  rcases h1 : env.downloadResult with e1 | u1
  · simp
  · rcases h2 : env.extractResult with e2 | u2
    · simp
    · rcases h3 : findBakFile env.walkEntries env.walkErr with e3 | b3 <;> simp [h3]

theorem downloadAndExtract_no_ledgerUpsert (env : Env) (file : DriveFile) (k s : String) :
    Event.ledgerUpsert k s ∉ (downloadAndExtract env file).2 := by
  unfold downloadAndExtract
  rcases h1 : env.downloadResult with e1 | u1
  · simp
  · rcases h2 : env.extractResult with e2 | u2
    · simp
    · rcases h3 : findBakFile env.walkEntries env.walkErr with e3 | b3 <;> simp [h3]

/-! ### Claims about restoreDB -/

/-- C4: when the single-user-mode command fails, `restoreDB` returns an
error and neither the `RESTORE` statement nor the multi-user-mode
command is ever issued; when the restore statement succeeds and only
the multi-user-mode command fails, `restoreDB` still returns success. -/
theorem restoreDB_single_user_gate (sql : SqlEnv) (dbName bakPath : String)
    (hfl : sql.filelistErr = none) :
    (∀ e, sql.singleUserResult = .error e →
      (restoreDB sql dbName bakPath).1 =
        .error ("failed to set database to single user: " ++ e) ∧
      (∀ a b c d, Event.sqlRestore a b c d ∉ (restoreDB sql dbName bakPath).2) ∧
      Event.sqlMultiUser ∉ (restoreDB sql dbName bakPath).2) ∧
    (∀ e, sql.singleUserResult = .ok () → sql.restoreResult = .ok () →
      sql.multiUserResult = .error e →
      (restoreDB sql dbName bakPath).1 = .ok ()) := by
  constructor
  · intro e hsu
    unfold restoreDB
    simp [hfl, hsu]
  · intro e hsu hre hmu
    unfold restoreDB
    simp [hfl, hsu, hre]

/-- C4 witness: both branches applied to a concrete environment. -/
theorem restoreDB_single_user_gate_witness :
    ((restoreDB ⟨none, "", none, "C:/D", .error "boom", .ok (), .ok ()⟩ "DB" "/t/b.bak").1 =
        .error ("failed to set database to single user: " ++ "boom") ∧
      (∀ a b c d, Event.sqlRestore a b c d ∉
        (restoreDB ⟨none, "", none, "C:/D", .error "boom", .ok (), .ok ()⟩ "DB" "/t/b.bak").2) ∧
      Event.sqlMultiUser ∉
        (restoreDB ⟨none, "", none, "C:/D", .error "boom", .ok (), .ok ()⟩ "DB" "/t/b.bak").2) ∧
    (restoreDB ⟨none, "", none, "C:/D", .ok (), .ok (), .error "mu"⟩ "DB" "/t/b.bak").1 = .ok () :=
  ⟨(restoreDB_single_user_gate ⟨none, "", none, "C:/D", .error "boom", .ok (), .ok ()⟩
      "DB" "/t/b.bak" rfl).1 "boom" rfl,
   (restoreDB_single_user_gate ⟨none, "", none, "C:/D", .ok (), .ok (), .error "mu"⟩
      "DB" "/t/b.bak" rfl).2 "mu" rfl rfl rfl⟩

/-- C5: the manifest-parsing step skips blank lines and lines with
fewer than three pipe-separated columns, otherwise takes the first
column as the logical name and writes it into the log slot exactly when
the upper-cased third column starts with `L` (the data slot otherwise),
each new row overwriting that slot; an output that trims to empty
yields the defaults `dbName` and `dbName ++ "_log"` for the
`RESTORE ... WITH MOVE` statement; the two-row example from the spec is
classified as stated. -/
theorem manifest_parsing_spec :
    (∀ acc l, goTrimSpace l = "" → manifestStep acc l = acc) ∧
    (∀ acc l, (goSplit (goTrimSpace l) '|').length < 3 → manifestStep acc l = acc) ∧
    (∀ acc l cols, cols = (goSplit (goTrimSpace l) '|').map goTrimSpace →
      3 ≤ cols.length →
      manifestStep acc l =
        if goStartsWith (goToUpper (cols.getD 2 "")) "L" then (acc.1, cols.getD 0 "")
        else (cols.getD 0 "", acc.2)) ∧
    (∀ lines acc l, List.foldl manifestStep acc (lines ++ [l]) =
      manifestStep (List.foldl manifestStep acc lines) l) ∧
    (∀ out dbName, goTrimSpace out = "" →
      restoreLogicals out dbName = (dbName, dbName ++ "_log")) ∧
    parseManifest "DataLog|filler|D\nDataLog_log|filler|L" = ("DataLog", "DataLog_log") := by
  refine ⟨?_, ?_, ?_, ?_, ?_, ?_⟩
  · intro acc l h
    unfold manifestStep
    simp [h]
  · intro acc l h
    unfold manifestStep
    by_cases h0 : goTrimSpace l = ""
    · simp [h0]
    · rw [if_neg h0]
      have hlt : ((goSplit (goTrimSpace l) '|').map goTrimSpace).length < 3 := by
        simpa using h
      rw [if_pos hlt]
  · intro acc l cols hc h3
    have hne : goTrimSpace l ≠ "" := by
      intro h0
      rw [h0] at hc
      have : cols.length = 1 := by rw [hc]; rfl
      omega
    unfold manifestStep
    rw [if_neg hne, show (goSplit (goTrimSpace l) '|').map goTrimSpace = cols from hc.symm,
      if_neg (by omega : ¬ cols.length < 3)]
  · intro lines acc l
    simp
  · intro out dbName h
    unfold restoreLogicals parseManifest
    simp [h]
  · decide

/-- C5 witness: each guarded conjunct applied at a concrete input. -/
theorem manifest_parsing_spec_witness :
    manifestStep ("a", "b") "   " = ("a", "b") ∧
    manifestStep ("a", "b") " one|two " = ("a", "b") ∧
    manifestStep ("a", "b") " n1 | p | d64 " =
      (if goStartsWith (goToUpper "d64") "L" then (("a", "b").1, "n1")
       else ("n1", ("a", "b").2)) ∧
    restoreLogicals "  " "MyDb" = ("MyDb", "MyDb_log") :=
  ⟨manifest_parsing_spec.1 ("a", "b") "   " (by decide),
   manifest_parsing_spec.2.1 ("a", "b") " one|two " (by decide),
   manifest_parsing_spec.2.2.1 ("a", "b") " n1 | p | d64 " ["n1", "p", "d64"] (by decide)
     (by decide),
   manifest_parsing_spec.2.2.2.2.1 "  " "MyDb" (by decide)⟩

/-- C6 counterexample: the code ignores the error of the data-path query and
uses whatever stdout was captured, so a failed query with the non-empty,
non-NULL captured output `"C:/Elsewhere"` resolves to that output — not
to the directory containing the `.bak` file — and the restore targets
are built under it. -/
theorem resolveDataPath_query_failure_counterexample :
    (⟨none, "", some "query failed", "C:/Elsewhere",
        .ok (), .ok (), .ok ()⟩ : SqlEnv).pathErr ≠ none ∧
    resolveDataPath "C:/Elsewhere" "/tmp/ex/backup.bak" = "C:/Elsewhere" ∧
    goDir "/tmp/ex/backup.bak" = "/tmp/ex" ∧
    "C:/Elsewhere" ≠ "/tmp/ex" ∧
    Event.sqlRestore "DB" "C:/Elsewhere/DB.mdf" "DB_log" "C:/Elsewhere/DB_log.ldf" ∈
      (restoreDB ⟨none, "", some "query failed", "C:/Elsewhere",
          .ok (), .ok (), .ok ()⟩ "DB" "/tmp/ex/backup.bak").2 := by
  refine ⟨by simp, by decide, by decide, by decide, ?_⟩
  unfold restoreDB
  simp [restoreLogicals, resolveDataPath]
  decide

/-- C6 amended: the fallback to the directory containing the `.bak`
file is decided solely by the captured output of the data-path query —
it triggers exactly when that output trims to empty or case-
insensitively equals NULL (in particular whenever a failed query
captures no output), and then the restore targets are built under the
bak directory; the error flag of the query itself is only logged. -/
theorem resolveDataPath_fallback (sql : SqlEnv) (dbName bakPath : String)
    (h : goTrimSpace sql.pathOut = "" ∨
      goEqualFold (goTrimSpace sql.pathOut) "NULL" = true)
    (hfl : sql.filelistErr = none) (hsu : sql.singleUserResult = .ok ()) :
    resolveDataPath sql.pathOut bakPath = goDir bakPath ∧
    Event.sqlRestore (restoreLogicals sql.filelistOut dbName).1
        (goJoin (goDir bakPath) (dbName ++ ".mdf"))
        (restoreLogicals sql.filelistOut dbName).2
        (goJoin (goDir bakPath) (dbName ++ "_log.ldf")) ∈
      (restoreDB sql dbName bakPath).2 := by
  have hres : resolveDataPath sql.pathOut bakPath = goDir bakPath := by
    unfold resolveDataPath
    rcases h with h | h
    · simp [h]
    · exact if_pos (Or.inr h)
  refine ⟨hres, ?_⟩
  unfold restoreDB
  rw [hfl]
  rcases hre : sql.restoreResult with e | u <;> simp [hsu, hre, hres]

/-- C6 witness: a failed query with empty captured output falls back to
the bak directory, and the restore statement targets live under it. -/
theorem resolveDataPath_fallback_witness :
    resolveDataPath (⟨none, "", some "boom", "", .ok (), .ok (), .ok ()⟩ : SqlEnv).pathOut
        "/tmp/ex/backup.bak" = goDir "/tmp/ex/backup.bak" ∧
    Event.sqlRestore (restoreLogicals "" "DB").1
        (goJoin (goDir "/tmp/ex/backup.bak") ("DB" ++ ".mdf"))
        (restoreLogicals "" "DB").2
        (goJoin (goDir "/tmp/ex/backup.bak") ("DB" ++ "_log.ldf")) ∈
      (restoreDB ⟨none, "", some "boom", "", .ok (), .ok (), .ok ()⟩
        "DB" "/tmp/ex/backup.bak").2 :=
  resolveDataPath_fallback ⟨none, "", some "boom", "", .ok (), .ok (), .ok ()⟩
    "DB" "/tmp/ex/backup.bak" (Or.inl (by decide)) rfl rfl

theorem foldl_last_filter (p : String × String → Bool)
    (entries : List (String × String)) (a : String) :
    entries.foldl (fun acc ent => if p ent then ent.1 else acc) a =
      (((entries.filter p).getLast?).map Prod.fst).getD a := by
  induction entries generalizing a with
  | nil => rfl
  | cons e es ih =>
    rw [List.foldl_cons, ih]
    by_cases hp : p e
    · rcases hfe : es.filter p with _ | ⟨g, gs⟩
      · simp [List.filter_cons, hfe, hp]
      · have hgl : (g :: gs).getLast? = some ((g :: gs).getLast (by simp)) :=
          List.getLast?_eq_getLast_of_ne_nil (by simp)
        simp [List.filter_cons, hfe, hp, List.getLast?_cons_cons, hgl]
    · simp [List.filter_cons, hp]

/-- C9: over a successful directory walk (modelled as the ordered entry
list, whose paths are non-empty), `findBakFile` returns the
no-bak-file-found error exactly when no entry name ends in `.bak`, and
otherwise returns the path of the last such entry in traversal order. -/
theorem findBakFile_spec (entries : List (String × String))
    (hpaths : ∀ ent ∈ entries, ent.1 ≠ "") :
    (findBakFile entries none = .error "no .bak file found" ↔
      entries.filter (fun ent => goEndsWith ent.2 ".bak") = []) ∧
    (∀ ms m, entries.filter (fun ent => goEndsWith ent.2 ".bak") = ms ++ [m] →
      findBakFile entries none = .ok m.1) := by
  have hf := foldl_last_filter (fun ent => goEndsWith ent.2 ".bak") entries ""
  constructor
  · constructor
    · intro h
      by_contra hne
      have hm : (entries.filter (fun ent => goEndsWith ent.2 ".bak")).getLast? =
          some ((entries.filter (fun ent => goEndsWith ent.2 ".bak")).getLast hne) :=
        List.getLast?_eq_getLast_of_ne_nil hne
      have hmem : (entries.filter (fun ent => goEndsWith ent.2 ".bak")).getLast hne ∈
          entries :=
        List.mem_of_mem_filter (List.getLast_mem hne)
      have hfold : entries.foldl
          (fun acc ent => if goEndsWith ent.2 ".bak" then ent.1 else acc) "" =
          ((entries.filter (fun ent => goEndsWith ent.2 ".bak")).getLast hne).1 := by
        rw [hf, hm]
        rfl
      unfold findBakFile at h
      rw [hfold, if_neg (hpaths _ hmem)] at h
      exact Except.noConfusion h
    · intro h
      unfold findBakFile
      rw [hf, h]
      rfl
  · intro ms m hfe
    have hmem : m ∈ entries := by
      apply List.mem_of_mem_filter (p := fun ent => goEndsWith ent.2 ".bak")
      rw [hfe]
      simp
    have hfold : entries.foldl
        (fun acc ent => if goEndsWith ent.2 ".bak" then ent.1 else acc) "" = m.1 := by
      rw [hf, hfe]
      simp
    unfold findBakFile
    rw [hfold, if_neg (hpaths _ hmem)]

/-- C9 witness: a tree with two `.bak` entries yields the later one,
and a tree with none yields the not-found error. -/
theorem findBakFile_spec_witness :
    findBakFile [("/e/a.bak", "a.bak"), ("/e/t.txt", "t.txt"), ("/e/s/b.bak", "b.bak")]
        none = .ok "/e/s/b.bak" ∧
    findBakFile [("/e/t.txt", "t.txt")] none = .error "no .bak file found" :=
  ⟨(findBakFile_spec [("/e/a.bak", "a.bak"), ("/e/t.txt", "t.txt"),
        ("/e/s/b.bak", "b.bak")] (by decide)).2
      [("/e/a.bak", "a.bak")] ("/e/s/b.bak", "b.bak") (by decide),
   (findBakFile_spec [("/e/t.txt", "t.txt")] (by decide)).1.mpr (by decide)⟩

/-! ### Ledger upsert lemmas -/

/-- Column B of a row, as read back from the grid. -/
def getColB (row : List Cell) : Option Cell := row[1]?

theorem rowMatches_setColB (kab v : String) (r : List Cell) :
    rowMatches kab (setColB r v) = rowMatches kab r := by
  cases r <;> rfl

theorem getColB_setColB (v : String) (r : List Cell) :
    getColB (setColB r v) = some (.str v) := by
  cases r <;> simp [getColB, setColB]

theorem setColB_setColB (v w : String) (r : List Cell) :
    setColB (setColB r v) w = setColB r w := by
  cases r <;> rfl

theorem updateFirstMatch_eq_none_iff (kab v : String) (grid : List (List Cell)) :
    updateFirstMatch kab v grid = none ↔ ∀ r ∈ grid, rowMatches kab r = false := by
  induction grid with
  | nil => simp [updateFirstMatch]
  | cons r rs ih =>
    by_cases hm : rowMatches kab r = true
    · simp [updateFirstMatch, hm]
    · rw [Bool.not_eq_true] at hm
      cases h2 : updateFirstMatch kab v rs with
      | none =>
        have h3 := ih.mp h2
        simp [updateFirstMatch, hm, h2]
        exact h3
      | some g =>
        have h3 : ¬ ∀ q ∈ rs, rowMatches kab q = false := by
          intro hall
          rw [ih.mpr hall] at h2
          exact Option.noConfusion h2
        simp only [updateFirstMatch, hm, if_false, h2, Bool.false_eq_true]
        simp only [List.mem_cons, forall_eq_or_imp, hm]
        constructor
        · intro hfalse
          exact Option.noConfusion hfalse
        · intro hall
          exact absurd hall.2 h3

theorem updateFirstMatch_split (kab v : String) (r : List Cell)
    (pre post : List (List Cell))
    (hpre : ∀ q ∈ pre, rowMatches kab q = false) (hr : rowMatches kab r = true) :
    updateFirstMatch kab v (pre ++ r :: post) = some (pre ++ setColB r v :: post) := by
  induction pre with
  | nil => simp [updateFirstMatch, hr]
  | cons q qs ih =>
    have hq : rowMatches kab q = false := hpre q (by simp)
    have ih2 := ih (fun x hx => hpre x (by simp [hx]))
    simp only [List.cons_append, updateFirstMatch, hq, Bool.false_eq_true, if_false,
      List.append_eq]
    rw [ih2]

theorem updateFirstMatch_decomp (kab v : String) (grid g : List (List Cell))
    (h : updateFirstMatch kab v grid = some g) :
    ∃ pre r post, grid = pre ++ r :: post ∧ (∀ q ∈ pre, rowMatches kab q = false) ∧
      rowMatches kab r = true ∧ g = pre ++ setColB r v :: post := by
  induction grid generalizing g with
  | nil => exact Option.noConfusion h
  | cons r rs ih =>
    by_cases hm : rowMatches kab r = true
    · refine ⟨[], r, rs, by simp, by simp, hm, ?_⟩
      simp [updateFirstMatch, hm] at h
      simp [← h]
    · rw [Bool.not_eq_true] at hm
      cases h2 : updateFirstMatch kab v rs with
      | none => simp [updateFirstMatch, hm, h2] at h
      | some g2 =>
        simp [updateFirstMatch, hm, h2] at h
        obtain ⟨pre, rr, post, hg, hpre, hrr, hg2⟩ := ih g2 h2
        refine ⟨r :: pre, rr, post, by simp [hg], ?_, hrr, by simp [← h, hg2]⟩
        intro q hq
        rcases List.mem_cons.mp hq with hq | hq
        · rw [hq, hm]
        · exact hpre q hq

theorem countMatches_append (kab : String) (l1 l2 : List (List Cell)) :
    countMatches kab (l1 ++ l2) = countMatches kab l1 + countMatches kab l2 := by
  simp [countMatches]

theorem countMatches_eq_zero_iff (kab : String) (l : List (List Cell)) :
    countMatches kab l = 0 ↔ ∀ r ∈ l, rowMatches kab r = false := by
  simp [countMatches, List.length_eq_zero, List.filter_eq_nil_iff]

theorem rowMatches_new_row (kab v : String) :
    rowMatches kab [.str kab, .str v] = true := by
  simp [rowMatches]

/-- The final state after the two upserts, assuming at most one
matching row initially: a decomposition into non-matching rows around
one matching row whose column B holds the second timestamp. -/
theorem upsert_upsert_shape (grid : List (List Cell)) (kab t1 t2 : String)
    (h : countMatches kab grid ≤ 1) :
    ∃ pre mid post,
      upsertSpreadsheetRow (upsertSpreadsheetRow grid kab t1) kab t2 =
        pre ++ mid :: post ∧
      (∀ q ∈ pre, rowMatches kab q = false) ∧
      (∀ q ∈ post, rowMatches kab q = false) ∧
      rowMatches kab mid = true ∧ getColB mid = some (.str t2) := by
  cases h1 : updateFirstMatch kab t1 grid with
  | none =>
    have hall : ∀ r ∈ grid, rowMatches kab r = false :=
      (updateFirstMatch_eq_none_iff kab t1 grid).mp h1
    have hg1 : upsertSpreadsheetRow grid kab t1 = grid ++ [[.str kab, .str t1]] := by
      unfold upsertSpreadsheetRow
      rw [h1]
    have h2 : updateFirstMatch kab t2 (grid ++ [[.str kab, .str t1]]) =
        some (grid ++ setColB [.str kab, .str t1] t2 :: []) :=
      updateFirstMatch_split kab t2 [.str kab, .str t1] grid [] hall
        (rowMatches_new_row kab t1)
    refine ⟨grid, setColB [.str kab, .str t1] t2, [], ?_, hall, by simp, ?_, ?_⟩
    · rw [hg1]
      unfold upsertSpreadsheetRow
      rw [h2]
    · rw [rowMatches_setColB]
      exact rowMatches_new_row kab t1
    · exact getColB_setColB t2 [.str kab, .str t1]
  | some g1 =>
    obtain ⟨pre, r, post, hgrid, hpre, hr, hg1⟩ :=
      updateFirstMatch_decomp kab t1 grid g1 h1
    have hpost : ∀ q ∈ post, rowMatches kab q = false := by
      rw [← countMatches_eq_zero_iff]
      have hc : countMatches kab grid =
          countMatches kab pre + countMatches kab (r :: post) := by
        rw [hgrid, countMatches_append]
      have hcr : countMatches kab (r :: post) =
          1 + countMatches kab post := by
        simp [countMatches, List.filter_cons, hr]
        omega
      omega
    have hmid1 : rowMatches kab (setColB r t1) = true := by
      rw [rowMatches_setColB]; exact hr
    have h2 : updateFirstMatch kab t2 (pre ++ setColB r t1 :: post) =
        some (pre ++ setColB (setColB r t1) t2 :: post) :=
      updateFirstMatch_split kab t2 (setColB r t1) pre post hpre hmid1
    refine ⟨pre, setColB r t2, post, ?_, hpre, hpost, ?_, getColB_setColB t2 r⟩
    · have hu1 : upsertSpreadsheetRow grid kab t1 = g1 := by
        unfold upsertSpreadsheetRow
        rw [h1]
      rw [hu1, hg1]
      unfold upsertSpreadsheetRow
      rw [h2, setColB_setColB]
    · rw [rowMatches_setColB]; exact hr

/-- C7 counterexample: on a ledger state that already holds two rows
for key `K`, running `upsert(K, T1)` then `upsert(K, T2)` leaves two
rows whose column A equals `K` — only the first was updated, the second
still holds its old column B — so the claimed "exactly one row on any
ledger state" fails. -/
theorem upsert_duplicate_key_counterexample :
    countMatches "K" (upsertSpreadsheetRow (upsertSpreadsheetRow
      [[Cell.str "K", Cell.str "x"], [Cell.str "K", Cell.str "y"]] "K" "T1") "K" "T2")
      = 2 ∧
    (upsertSpreadsheetRow (upsertSpreadsheetRow
      [[Cell.str "K", Cell.str "x"], [Cell.str "K", Cell.str "y"]] "K" "T1") "K" "T2")
      = [[Cell.str "K", Cell.str "T2"], [Cell.str "K", Cell.str "y"]] := by
  constructor
  · decide
  · decide

/-- C7 amended: provided the initial state holds at most one row for
the key, `upsert(K, T1); upsert(K, T2)` leaves exactly one row whose
column A matches `K`, and its column B is `T2`; moreover, on any state,
an upsert updates column B of the first matching row in place when one
exists and appends `[K, T]` only when none does, so the number of rows
for an existing key never grows. -/
theorem upsert_idempotent_per_key (grid : List (List Cell)) (kab t1 t2 : String)
    (h : countMatches kab grid ≤ 1) :
    countMatches kab
      (upsertSpreadsheetRow (upsertSpreadsheetRow grid kab t1) kab t2) = 1 ∧
    (∀ r ∈ upsertSpreadsheetRow (upsertSpreadsheetRow grid kab t1) kab t2,
      rowMatches kab r = true → getColB r = some (.str t2)) ∧
    (∀ v, countMatches kab (upsertSpreadsheetRow grid kab v) =
      max 1 (countMatches kab grid)) ∧
    ((∀ q ∈ grid, rowMatches kab q = false) →
      ∀ v, upsertSpreadsheetRow grid kab v = grid ++ [[.str kab, .str v]]) ∧
    (∀ pre r post v, grid = pre ++ r :: post →
      (∀ q ∈ pre, rowMatches kab q = false) → rowMatches kab r = true →
      upsertSpreadsheetRow grid kab v = pre ++ setColB r v :: post) := by
  obtain ⟨pre, mid, post, hshape, hpre, hpost, hmid, hcolB⟩ :=
    upsert_upsert_shape grid kab t1 t2 h
  refine ⟨?_, ?_, ?_, ?_, ?_⟩
  · have hc1 : countMatches kab pre = 0 := (countMatches_eq_zero_iff kab pre).mpr hpre
    have hc2 : countMatches kab post = 0 := (countMatches_eq_zero_iff kab post).mpr hpost
    have hcons : countMatches kab (mid :: post) = countMatches kab post + 1 := by
      simp [countMatches, List.filter_cons, hmid]
    rw [hshape, countMatches_append, hc1, hcons, hc2]
  · intro r hr hrm
    rw [hshape] at hr
    rcases List.mem_append.mp hr with hr | hr
    · rw [hpre r hr] at hrm
      exact Bool.noConfusion hrm
    · rcases List.mem_cons.mp hr with hr | hr
      · rw [hr]
        exact hcolB
      · rw [hpost r hr] at hrm
        exact Bool.noConfusion hrm
  · intro v
    cases h1 : updateFirstMatch kab v grid with
    | none =>
      have hz : countMatches kab grid = 0 :=
        (countMatches_eq_zero_iff kab grid).mpr
          ((updateFirstMatch_eq_none_iff kab v grid).mp h1)
      have hup : upsertSpreadsheetRow grid kab v = grid ++ [[.str kab, .str v]] := by
        unfold upsertSpreadsheetRow
        rw [h1]
      rw [hup, countMatches_append, hz]
      simp [countMatches, List.filter_cons, rowMatches_new_row]
    | some g =>
      obtain ⟨p2, r2, q2, hg2, hp2, hr2, hgg⟩ :=
        updateFirstMatch_decomp kab v grid g h1
      have hup : upsertSpreadsheetRow grid kab v = g := by
        unfold upsertSpreadsheetRow
        rw [h1]
      rw [hup, hgg, hg2, countMatches_append, countMatches_append]
      simp only [countMatches, List.filter_cons, hr2, rowMatches_setColB]
      simp
      omega
  · intro hall v
    have h1 : updateFirstMatch kab v grid = none :=
      (updateFirstMatch_eq_none_iff kab v grid).mpr hall
    unfold upsertSpreadsheetRow
    rw [h1]
  · intro pre2 r2 post2 v hgrid hpre2 hr2
    unfold upsertSpreadsheetRow
    rw [hgrid, updateFirstMatch_split kab v r2 pre2 post2 hpre2 hr2]

/-- C7 witness: the amended theorem applied to a one-row non-matching
state. -/
theorem upsert_idempotent_per_key_witness :
    countMatches "K" (upsertSpreadsheetRow (upsertSpreadsheetRow
      [[Cell.str "A", Cell.str "1"]] "K" "T1") "K" "T2") = 1 :=
  (upsert_idempotent_per_key [[Cell.str "A", Cell.str "1"]] "K" "T1" "T2" (by decide)).1

/-! ### Claims about processFile -/

/-- An all-success environment used to witness the processFile claims. -/
def wSql : SqlEnv := ⟨none, "", none, "C:/Data", .ok (), .ok (), .ok ()⟩

/-- Concrete environment: every external call succeeds, one timestamp
parses. -/
def wEnv : Env :=
  ⟨.ok "/tmp/t", .ok (), .ok (), none, [("/tmp/t/extracted/x.bak", "x.bak")], wSql,
   .ok (), .ok (), .ok "Kab01",
   (fun s => if s == "2025-01-01T00:00:00Z" then some 1000 else none),
   600000001000, fun _ => "1/1/2025 07:00:00"⟩

/-- A candidate file above the size threshold. -/
def wFile : DriveFile := ⟨"id2", "Susenas2025M_y", "2025-01-01T00:00:00Z", 20480, ["p"]⟩

/-- A candidate file below the size threshold. -/
def wSmall : DriveFile := ⟨"id1", "Susenas2025M_x", "2025-01-01T00:00:00Z", 2048, []⟩

/-- C8: a file below the 10 KiB threshold is handed to
`deleteSmallFile` and the only attempted external operation is the
source deletion — no scratch directory, download, extraction, restore,
or ledger write. -/
theorem processFile_small_file (env : Env) (file : DriveFile) (dbName : String)
    (h : file.size < minFileSize) :
    processFile env file dbName = deleteSmallFile env file ∧
    (processFile env file dbName).2 = [.deleteDrive file.id] := by
  have h1 : processFile env file dbName = deleteSmallFile env file := by
    unfold processFile
    rw [if_pos h]
  refine ⟨h1, ?_⟩
  rw [h1]
  unfold deleteSmallFile
  rcases hd : env.deleteResult with e | u <;> simp [hd]

/-- C8 witness. -/
theorem processFile_small_file_witness :
    processFile wEnv wSmall "DB" = deleteSmallFile wEnv wSmall ∧
    (processFile wEnv wSmall "DB").2 = [.deleteDrive "id1"] :=
  processFile_small_file wEnv wSmall "DB" (by decide)

/-- C3: when the restore step or the update-query step fails,
`processFile` returns that error, no source deletion is attempted and
no ledger write occurs. -/
theorem processFile_restore_failure_no_cleanup (env : Env) (file : DriveFile)
    (dbName bak td : String) (evs : List Event)
    (hsize : ¬ file.size < minFileSize)
    (htd : env.tempDirResult = .ok td)
    (hdl : downloadAndExtract env file = (.ok bak, evs)) :
    (∀ e revs, restoreDB env.sql dbName bak = (.error e, revs) →
      (processFile env file dbName).1 = .error e ∧
      (∀ i, Event.deleteDrive i ∉ (processFile env file dbName).2) ∧
      (∀ k s, Event.ledgerUpsert k s ∉ (processFile env file dbName).2)) ∧
    (∀ e revs, restoreDB env.sql dbName bak = (.ok (), revs) →
      env.updateQueryResult = .error e →
      (processFile env file dbName).1 = .error e ∧
      (∀ i, Event.deleteDrive i ∉ (processFile env file dbName).2) ∧
      (∀ k s, Event.ledgerUpsert k s ∉ (processFile env file dbName).2)) := by
  have hne1 : ∀ i, Event.deleteDrive i ∉ evs := by
    intro i
    have h := downloadAndExtract_no_deleteDrive env file i
    rw [hdl] at h
    exact h
  have hnu1 : ∀ k s, Event.ledgerUpsert k s ∉ evs := by
    intro k s
    have h := downloadAndExtract_no_ledgerUpsert env file k s
    rw [hdl] at h
    exact h
  constructor
  · intro e revs hre
    have hne2 : ∀ i, Event.deleteDrive i ∉ revs := by
      intro i
      have h := restoreDB_no_deleteDrive env.sql dbName bak i
      rw [hre] at h
      exact h
    have hnu2 : ∀ k s, Event.ledgerUpsert k s ∉ revs := by
      intro k s
      have h := restoreDB_no_ledgerUpsert env.sql dbName bak k s
      rw [hre] at h
      exact h
    refine ⟨?_, ?_, ?_⟩
    · unfold processFile
      rw [if_neg hsize]
      simp only [htd, hdl, hre]
    · intro i
      unfold processFile
      rw [if_neg hsize]
      simp only [htd, hdl, hre]
      simp [hne1 i, hne2 i]
    · intro k s
      unfold processFile
      rw [if_neg hsize]
      simp only [htd, hdl, hre]
      simp [hnu1 k s, hnu2 k s]
  · intro e revs hre hupd
    have hne2 : ∀ i, Event.deleteDrive i ∉ revs := by
      intro i
      have h := restoreDB_no_deleteDrive env.sql dbName bak i
      rw [hre] at h
      exact h
    have hnu2 : ∀ k s, Event.ledgerUpsert k s ∉ revs := by
      intro k s
      have h := restoreDB_no_ledgerUpsert env.sql dbName bak k s
      rw [hre] at h
      exact h
    refine ⟨?_, ?_, ?_⟩
    · unfold processFile
      rw [if_neg hsize]
      simp only [htd, hdl, hre, hupd]
    · intro i
      unfold processFile
      rw [if_neg hsize]
      simp only [htd, hdl, hre, hupd]
      simp [hne1 i, hne2 i]
    · intro k s
      unfold processFile
      rw [if_neg hsize]
      simp only [htd, hdl, hre, hupd]
      simp [hnu1 k s, hnu2 k s]

/-- C3 witness: a failing restore and a failing update query on
otherwise-successful environments. -/
theorem processFile_restore_failure_no_cleanup_witness :
    ((processFile
        ⟨.ok "/tmp/t", .ok (), .ok (), none, [("/tmp/t/extracted/x.bak", "x.bak")],
          ⟨none, "", none, "C:/Data", .error "su", .ok (), .ok ()⟩,
          .ok (), .ok (), .ok "Kab01", (fun _ => none), 0, fun _ => "f"⟩
        wFile "DB").1 = .error ("failed to set database to single user: " ++ "su")) ∧
    ((processFile
        ⟨.ok "/tmp/t", .ok (), .ok (), none, [("/tmp/t/extracted/x.bak", "x.bak")],
          wSql, .error "uq", .ok (), .ok "Kab01", (fun _ => none), 0, fun _ => "f"⟩
        wFile "DB").1 = .error "uq") :=
  ⟨((processFile_restore_failure_no_cleanup
      ⟨.ok "/tmp/t", .ok (), .ok (), none, [("/tmp/t/extracted/x.bak", "x.bak")],
        ⟨none, "", none, "C:/Data", .error "su", .ok (), .ok ()⟩,
        .ok (), .ok (), .ok "Kab01", (fun _ => none), 0, fun _ => "f"⟩
      wFile "DB" "/tmp/t/extracted/x.bak" "/tmp/t"
      [.download "id2", .extractArchive, .walkDir]
      (by decide) rfl rfl).1
    ("failed to set database to single user: " ++ "su")
    [.sqlFilelist, .sqlPathQuery, .sqlSingleUser] rfl).1,
   ((processFile_restore_failure_no_cleanup
      ⟨.ok "/tmp/t", .ok (), .ok (), none, [("/tmp/t/extracted/x.bak", "x.bak")],
        wSql, .error "uq", .ok (), .ok "Kab01", (fun _ => none), 0, fun _ => "f"⟩
      wFile "DB" "/tmp/t/extracted/x.bak" "/tmp/t"
      [.download "id2", .extractArchive, .walkDir]
      (by decide) rfl rfl).2
    "uq"
    [.sqlFilelist, .sqlPathQuery, .sqlSingleUser,
      .sqlRestore "DB" "C:/Data/DB.mdf" "DB_log" "C:/Data/DB_log.ldf", .sqlMultiUser]
    rfl rfl).1⟩

/-- C1: when download/extraction fails, the age gate decides cleanup —
a parsed creation timestamp at least 10 minutes old leads to source
deletion and a ledger upsert attempt (given that the deletion and the
parent-folder lookup succeed), a younger timestamp leads to neither,
and the extraction error is returned in both branches. -/
theorem processFile_extract_failure_age_gate (env : Env) (file : DriveFile)
    (dbName td e : String) (evs : List Event) (t : Int) (p : String)
    (hsize : ¬ file.size < minFileSize)
    (htd : env.tempDirResult = .ok td)
    (hdl : downloadAndExtract env file = (.error e, evs))
    (hparse : env.parseTime file.createdTime = some t)
    (hdel : env.deleteResult = .ok ())
    (hpar : env.parentName = .ok p) :
    (maxAgeForDeletion ≤ env.now - t →
      (processFile env file dbName).1 = .error e ∧
      Event.deleteDrive file.id ∈ (processFile env file dbName).2 ∧
      Event.ledgerUpsert p (formatCreatedTime env file.createdTime) ∈
        (processFile env file dbName).2) ∧
    (env.now - t < maxAgeForDeletion →
      (processFile env file dbName).1 = .error e ∧
      (∀ i, Event.deleteDrive i ∉ (processFile env file dbName).2) ∧
      (∀ k s, Event.ledgerUpsert k s ∉ (processFile env file dbName).2)) := by
  have hne1 : ∀ i, Event.deleteDrive i ∉ evs := by
    intro i
    have h := downloadAndExtract_no_deleteDrive env file i
    rw [hdl] at h
    exact h
  have hnu1 : ∀ k s, Event.ledgerUpsert k s ∉ evs := by
    intro k s
    have h := downloadAndExtract_no_ledgerUpsert env file k s
    rw [hdl] at h
    exact h
  constructor
  · intro hage
    have hsd : shouldDelete env file = true := by
      unfold shouldDelete
      rw [hparse]
      simp [ge_iff_le, hage]
    have hd : deleteFileAndUpdateSpreadsheet env file =
        (.ok (), [.deleteDrive file.id,
          .ledgerUpsert p (formatCreatedTime env file.createdTime)]) := by
      unfold deleteFileAndUpdateSpreadsheet
      simp only [hdel, hpar]
    refine ⟨?_, ?_, ?_⟩ <;>
    · unfold processFile
      rw [if_neg hsize]
      simp only [htd, hdl, hsd, if_true, hd]
      try simp
  · intro hage
    have hsd : shouldDelete env file = false := by
      unfold shouldDelete
      rw [hparse]
      simp only [ge_iff_le, decide_eq_false_iff_not, not_le]
      exact hage
    refine ⟨?_, ?_, ?_⟩
    · unfold processFile
      rw [if_neg hsize]
      simp only [htd, hdl, hsd]
      simp
    · intro i
      unfold processFile
      rw [if_neg hsize]
      simp only [htd, hdl, hsd]
      simp [hne1 i]
    · intro k s
      unfold processFile
      rw [if_neg hsize]
      simp only [htd, hdl, hsd]
      simp [hnu1 k s]

/-- Extraction-failure environment with an old parsed timestamp. -/
def wEnvExtractOld : Env :=
  ⟨.ok "/tmp/t", .ok (), .error "bad", none, [("/tmp/t/extracted/x.bak", "x.bak")],
   wSql, .ok (), .ok (), .ok "Kab01",
   (fun s => if s == "2025-01-01T00:00:00Z" then some 1000 else none),
   600000001000, fun _ => "1/1/2025 07:00:00"⟩

/-- Extraction-failure environment with a young parsed timestamp. -/
def wEnvExtractYoung : Env :=
  ⟨.ok "/tmp/t", .ok (), .error "bad", none, [("/tmp/t/extracted/x.bak", "x.bak")],
   wSql, .ok (), .ok (), .ok "Kab01",
   (fun s => if s == "2025-01-01T00:00:00Z" then some 1000 else none),
   2000, fun _ => "1/1/2025 07:00:00"⟩

/-- C1 witness: both age-gate branches at concrete environments. -/
theorem processFile_extract_failure_age_gate_witness :
    ((processFile wEnvExtractOld wFile "DB").1 =
        .error ("failed to extract 7z: " ++ "bad") ∧
      Event.deleteDrive "id2" ∈ (processFile wEnvExtractOld wFile "DB").2 ∧
      Event.ledgerUpsert "Kab01" (formatCreatedTime wEnvExtractOld wFile.createdTime) ∈
        (processFile wEnvExtractOld wFile "DB").2) ∧
    ((processFile wEnvExtractYoung wFile "DB").1 =
        .error ("failed to extract 7z: " ++ "bad") ∧
      (∀ i, Event.deleteDrive i ∉ (processFile wEnvExtractYoung wFile "DB").2) ∧
      (∀ k s, Event.ledgerUpsert k s ∉ (processFile wEnvExtractYoung wFile "DB").2)) :=
  ⟨(processFile_extract_failure_age_gate wEnvExtractOld wFile "DB" "/tmp/t"
      ("failed to extract 7z: " ++ "bad") [.download "id2", .extractArchive] 1000 "Kab01"
      (by decide) rfl rfl (by decide) rfl rfl).1 (by decide),
   (processFile_extract_failure_age_gate wEnvExtractYoung wFile "DB" "/tmp/t"
      ("failed to extract 7z: " ++ "bad") [.download "id2", .extractArchive] 1000 "Kab01"
      (by decide) rfl rfl (by decide) rfl rfl).2 (by decide)⟩

/-- C10: when the creation timestamp does not parse as RFC3339,
`shouldDelete` is false, so a failed-to-extract file is handled exactly
like a young file: the extraction error is returned, the source is not
deleted and no ledger row is written. -/
theorem processFile_unparseable_created_time (env : Env) (file : DriveFile)
    (dbName td e : String) (evs : List Event)
    (hsize : ¬ file.size < minFileSize)
    (htd : env.tempDirResult = .ok td)
    (hdl : downloadAndExtract env file = (.error e, evs))
    (hparse : env.parseTime file.createdTime = none) :
    shouldDelete env file = false ∧
    (processFile env file dbName).1 = .error e ∧
    (∀ i, Event.deleteDrive i ∉ (processFile env file dbName).2) ∧
    (∀ k s, Event.ledgerUpsert k s ∉ (processFile env file dbName).2) := by
  have hne1 : ∀ i, Event.deleteDrive i ∉ evs := by
    intro i
    have h := downloadAndExtract_no_deleteDrive env file i
    rw [hdl] at h
    exact h
  have hnu1 : ∀ k s, Event.ledgerUpsert k s ∉ evs := by
    intro k s
    have h := downloadAndExtract_no_ledgerUpsert env file k s
    rw [hdl] at h
    exact h
  have hsd : shouldDelete env file = false := by
    unfold shouldDelete
    rw [hparse]
  refine ⟨hsd, ?_, ?_, ?_⟩
  · unfold processFile
    rw [if_neg hsize]
    simp only [htd, hdl, hsd]
    simp
  · intro i
    unfold processFile
    rw [if_neg hsize]
    simp only [htd, hdl, hsd]
    simp [hne1 i]
  · intro k s
    unfold processFile
    rw [if_neg hsize]
    simp only [htd, hdl, hsd]
    simp [hnu1 k s]

/-- Extraction-failure environment whose timestamps never parse. -/
def wEnvExtractNoParse : Env :=
  ⟨.ok "/tmp/t", .ok (), .error "bad", none, [("/tmp/t/extracted/x.bak", "x.bak")],
   wSql, .ok (), .ok (), .ok "Kab01", (fun _ => none), 600000001000,
   fun _ => "1/1/2025 07:00:00"⟩

/-- C10 witness. -/
theorem processFile_unparseable_created_time_witness :
    shouldDelete wEnvExtractNoParse wFile = false ∧
    (processFile wEnvExtractNoParse wFile "DB").1 =
      .error ("failed to extract 7z: " ++ "bad") ∧
    (∀ i, Event.deleteDrive i ∉ (processFile wEnvExtractNoParse wFile "DB").2) ∧
    (∀ k s, Event.ledgerUpsert k s ∉ (processFile wEnvExtractNoParse wFile "DB").2) :=
  processFile_unparseable_created_time wEnvExtractNoParse wFile "DB" "/tmp/t"
    ("failed to extract 7z: " ++ "bad") [.download "id2", .extractArchive]
    (by decide) rfl rfl rfl

/-- C2: `deleteFileAndUpdateSpreadsheet` attempts the Drive deletion
first — its trace always begins with the deletion event — and when the
deletion fails it returns the deletion error without attempting the
ledger upsert; on the fully successful `processFile` path the trace
shows the deletion immediately before the ledger upsert. -/
theorem source_deletion_precedes_ledger_upsert (env : Env) (file : DriveFile) :
    (∀ e, env.deleteResult = .error e →
      (deleteFileAndUpdateSpreadsheet env file).1 =
        .error ("failed to delete Drive file: " ++ e) ∧
      (∀ k s, Event.ledgerUpsert k s ∉ (deleteFileAndUpdateSpreadsheet env file).2)) ∧
    (∃ rest, (deleteFileAndUpdateSpreadsheet env file).2 =
      .deleteDrive file.id :: rest) ∧
    (∀ dbName bak td p, ∀ evs revs : List Event,
      ¬ file.size < minFileSize →
      env.tempDirResult = .ok td →
      downloadAndExtract env file = (.ok bak, evs) →
      restoreDB env.sql dbName bak = (.ok (), revs) →
      env.updateQueryResult = .ok () →
      env.deleteResult = .ok () →
      env.parentName = .ok p →
      processFile env file dbName =
        (.ok (), .createTemp :: evs ++ [.grantPerms] ++ revs ++
          [.runUpdate, .deleteDrive file.id,
           .ledgerUpsert p (formatCreatedTime env file.createdTime), .removeTemp])) := by
  refine ⟨?_, ?_, ?_⟩
  · intro e he
    refine ⟨?_, ?_⟩
    · unfold deleteFileAndUpdateSpreadsheet
      simp only [he]
    · intro k s
      unfold deleteFileAndUpdateSpreadsheet
      simp only [he]
      simp
  · unfold deleteFileAndUpdateSpreadsheet
    rcases hd : env.deleteResult with e | u
    · exact ⟨[], by simp only [hd]⟩
    · rcases hp : env.parentName with e2 | p
      · exact ⟨[], by simp only [hd, hp]⟩
      · exact ⟨[.ledgerUpsert p (formatCreatedTime env file.createdTime)],
          by simp only [hd, hp]⟩
  · intro dbName bak td p evs revs hsize htd hdl hre hupd hdel hpar
    have hd : deleteFileAndUpdateSpreadsheet env file =
        (.ok (), [.deleteDrive file.id,
          .ledgerUpsert p (formatCreatedTime env file.createdTime)]) := by
      unfold deleteFileAndUpdateSpreadsheet
      simp only [hdel, hpar]
    unfold processFile
    rw [if_neg hsize]
    simp only [htd, hdl, hre, hupd, hd]
    simp

/-- C2 witness: deletion-failure case and the fully successful trace. -/
theorem source_deletion_precedes_ledger_upsert_witness :
    ((deleteFileAndUpdateSpreadsheet
        ⟨.ok "/tmp/t", .ok (), .ok (), none, [("/tmp/t/extracted/x.bak", "x.bak")],
          wSql, .ok (), .error "df", .ok "Kab01", (fun _ => none), 0, fun _ => "f"⟩
        wFile).1 = .error ("failed to delete Drive file: " ++ "df") ∧
      (∀ k s, Event.ledgerUpsert k s ∉ (deleteFileAndUpdateSpreadsheet
        ⟨.ok "/tmp/t", .ok (), .ok (), none, [("/tmp/t/extracted/x.bak", "x.bak")],
          wSql, .ok (), .error "df", .ok "Kab01", (fun _ => none), 0, fun _ => "f"⟩
        wFile).2)) ∧
    processFile wEnv wFile "DB" =
      (.ok (), .createTemp :: [.download "id2", .extractArchive, .walkDir] ++
        [.grantPerms] ++
        [.sqlFilelist, .sqlPathQuery, .sqlSingleUser,
          .sqlRestore "DB" "C:/Data/DB.mdf" "DB_log" "C:/Data/DB_log.ldf",
          .sqlMultiUser] ++
        [.runUpdate, .deleteDrive "id2",
         .ledgerUpsert "Kab01" (formatCreatedTime wEnv wFile.createdTime),
         .removeTemp]) :=
  ⟨(source_deletion_precedes_ledger_upsert
      ⟨.ok "/tmp/t", .ok (), .ok (), none, [("/tmp/t/extracted/x.bak", "x.bak")],
        wSql, .ok (), .error "df", .ok "Kab01", (fun _ => none), 0, fun _ => "f"⟩
      wFile).1 "df" rfl,
   (source_deletion_precedes_ledger_upsert wEnv wFile).2.2 "DB"
     "/tmp/t/extracted/x.bak" "/tmp/t" "Kab01"
     [.download "id2", .extractArchive, .walkDir]
     [.sqlFilelist, .sqlPathQuery, .sqlSingleUser,
       .sqlRestore "DB" "C:/Data/DB.mdf" "DB_log" "C:/Data/DB_log.ldf", .sqlMultiUser]
     (by decide) rfl rfl rfl rfl rfl rfl⟩

end BackupOtomatis
